import Mathlib

/-!
A shallow embedding of the core logic of `src/sigur/services/mysql.py`
(placeholder analysis, parameter validation, configuration resolution,
result encoding), together with theorems checking the specification's
claims about it.

SQL text is modelled as `List Char`.  The three regular expressions of the
source are modelled as explicit left-to-right scans with the same
semantics (non-overlapping matches, lookbehind on the original text).
Python `set` values are represented canonically as sorted duplicate-free
lists; every use the source makes of these sets (truthiness, membership,
`sorted`) is order-insensitive, so the representation is observationally
faithful.  Error messages are carried verbatim (Python f-string
interpolations become string concatenation with `toString`).
-/

/-- `[A-Za-z_]`: the first character of a placeholder identifier. -/
def isWordStart (c : Char) : Bool := c.isAlpha || c == '_'

/-- `[A-Za-z0-9_]`: a subsequent character of a placeholder identifier. -/
def isWordChar (c : Char) : Bool := c.isAlphanum || c == '_'

/-- Python `str` comparison on two character lists: lexicographic by code point. -/
def charsLe : List Char → List Char → Bool
  | [], _ => true
  | _ :: _, [] => false
  | a :: as, b :: bs =>
      if a.toNat < b.toNat then true
      else if a.toNat = b.toNat then charsLe as bs
      else false

/-- Python `str` comparison (`a <= b`). -/
def strLe (a b : String) : Bool := charsLe a.toList b.toList

/-- Insert a string into a list that is sorted by `strLe`, keeping it sorted. -/
def insSorted (x : String) : List String → List String
  | [] => [x]
  | y :: ys => if strLe x y then x :: y :: ys else y :: insSorted x ys

/-- Python `sorted` on strings: insertion sort by code-point order. -/
def pySorted (l : List String) : List String := l.foldr insSorted []

/-- The error taxonomy of the service, from the exception classes of the
source.  `parameter` additionally carries the structured `missing_params`
attribute of `MySQLParameterError` (empty unless a raise site passes it). -/
inductive MySQLServiceError : Type where
  | configuration (message : String)
  | connection (message : String)
  | execution (message : String)
  | parameter (message : String) (missing_params : List String)
deriving DecidableEq

/-- `MySQLDatabase`: the enumerated target values. -/
inductive MySQLDatabase : Type where
  | main
  | log
deriving DecidableEq

/-- `target.name` of the Python enum member (already upper case). -/
def MySQLDatabase.name : MySQLDatabase → String
  | .main => "MAIN"
  | .log => "LOG"

/-- `MySQLConfig`: the resolved connection settings. -/
structure MySQLConfig : Type where
  host : String
  user : String
  password : String
  database : String
  port : Int
  charset : String
deriving DecidableEq

/-- The scanner state of the colon-placeholder rewrite.  `plain p` is
ordinary scanning, `p` recording whether the previous character of the
original text is `:` (the negative lookbehind `(?<!:)`); `pend` means the
previous character was a `:` whose lookbehind succeeded, not yet emitted,
waiting to see whether an identifier follows; `name` means we are inside
the identifier of a match and `%(`·head have already been emitted. -/
inductive CSState : Type where
  | plain (p : Bool)
  | pend
  | name
deriving DecidableEq

/-- `COLON_PARAM_PATTERN.sub`: one left-to-right pass rewriting every
match of `(?<!:):(?P<name>[A-Za-z_][A-Za-z0-9_]*)` into `%(name)s`,
with `re.sub`'s non-overlapping left-to-right semantics (after a match
the scan resumes at the character following the identifier; the
lookbehind always inspects the original text). -/
def colonSubAux : CSState → List Char → List Char
  | .plain _, [] => []
  | .plain p, c :: cs =>
      if c = ':' then
        if p then ':' :: colonSubAux (.plain true) cs
        else colonSubAux .pend cs
      else c :: colonSubAux (.plain false) cs
  | .pend, [] => [':']
  | .pend, c :: cs =>
      if isWordStart c then '%' :: '(' :: c :: colonSubAux .name cs
      else if c = ':' then ':' :: ':' :: colonSubAux (.plain true) cs
      else ':' :: c :: colonSubAux (.plain false) cs
  | .name, [] => [')', 's']
  | .name, c :: cs =>
      if isWordChar c then c :: colonSubAux .name cs
      else if c = ':' then ')' :: 's' :: colonSubAux .pend cs
      else ')' :: 's' :: c :: colonSubAux (.plain false) cs

/-- The colon-placeholder normalisation applied to a whole text
(at position 0 the lookbehind trivially succeeds). -/
def colonSub (l : List Char) : List Char := colonSubAux (.plain false) l

/-- The scanner state of the positional-marker count.  `p0`: the previous
character is not `%`; `pct`: the previous character is a `%` whose own
predecessor was not `%` (a live match candidate); `pctBlocked`: the
previous character is a `%` preceded by another `%`, so the negative
lookbehind `(?<!%)` rejects it. -/
inductive PosState : Type where
  | p0
  | pct
  | pctBlocked
deriving DecidableEq

/-- `len(POSITIONAL_PARAM_PATTERN.findall(...))`: the number of
non-overlapping matches of `(?<!%)%(?!\()s`.  The lookahead `(?!\()` is
subsumed by the mandatory following `s`; the lookbehind always inspects
the original text, so `%%%s` has no match. -/
def countPosAux : PosState → List Char → Nat
  | _, [] => 0
  | .p0, c :: cs => countPosAux (if c = '%' then .pct else .p0) cs
  | .pct, c :: cs =>
      if c = 's' then 1 + countPosAux .p0 cs
      else countPosAux (if c = '%' then .pctBlocked else .p0) cs
  | .pctBlocked, c :: cs =>
      countPosAux (if c = '%' then .pctBlocked else .p0) cs

/-- The positional-placeholder count of a whole text. -/
def countPositional (l : List Char) : Nat := countPosAux .p0 l

/-- The number of positions carrying a bare positional marker: an
occurrence of `%s` whose `%` is not immediately preceded by another `%`
character.  Each position is judged by its three-character window alone;
the flag records whether the previous character is `%`. -/
def bareSpec : Bool → List Char → Nat
  | _, [] => 0
  | p, c :: cs =>
      (if (c == '%') && (cs.head? == some 's') && !p then 1 else 0) + bareSpec (c == '%') cs

/-- The scanner state of the named-placeholder finder: `scan` (nothing
pending), `sawPct` (previous character was `%`), `sawParen` (previous two
characters were `%(`), `name acc` (inside an identifier, characters so
far reversed in `acc`), `sawClose acc` (identifier followed by `)`,
waiting for the final `s`).  On a failed candidate the characters already
skipped (`(` and identifier characters) cannot contain `%`, so resuming
at the failing character is equivalent to the regex engine's
advance-by-one retries. -/
inductive FNState : Type where
  | scan
  | sawPct
  | sawParen
  | name (acc : List Char)
  | sawClose (acc : List Char)
deriving DecidableEq

/-- `NAMED_PARAM_PATTERN.finditer`: the identifiers of the non-overlapping
matches of `%\((?P<name>[A-Za-z_][A-Za-z0-9_]*)\)s`, in match order,
duplicates kept. -/
def findNamedAux : FNState → List Char → List (List Char)
  | _, [] => []
  | .scan, c :: cs => findNamedAux (if c = '%' then .sawPct else .scan) cs
  | .sawPct, c :: cs =>
      findNamedAux (if c = '(' then .sawParen else if c = '%' then .sawPct else .scan) cs
  | .sawParen, c :: cs =>
      if isWordStart c then findNamedAux (.name [c]) cs
      else findNamedAux (if c = '%' then .sawPct else .scan) cs
  | .name acc, c :: cs =>
      if isWordChar c then findNamedAux (.name (c :: acc)) cs
      else if c = ')' then findNamedAux (.sawClose acc) cs
      else findNamedAux (if c = '%' then .sawPct else .scan) cs
  | .sawClose acc, c :: cs =>
      if c = 's' then acc.reverse :: findNamedAux .scan cs
      else findNamedAux (if c = '%' then .sawPct else .scan) cs

/-- The named-placeholder identifiers of a text, in match order. -/
def findNamed (l : List Char) : List (List Char) := findNamedAux .scan l

/-- `extract_named_params`: the set of named placeholders of the SQL text,
represented canonically as the sorted duplicate-free list of names. -/
def extract_named_params (raw_sql : List Char) : List String :=
  pySorted ((findNamed raw_sql).map (fun n => (⟨n⟩ : String))).dedup

/-- The mixed-style message of `analyse_placeholders` (verbatim). -/
def MIXED_STYLE_MSG : String :=
  "API  so'rovda nomlangan (`%(name)s`) va pozitsion (`%s`) parametrlar aralashtirilgan. Iltimos faqat nomlangan parametr uslubidan foydalaning."

/-- `analyse_placeholders`: normalise colon placeholders, collect named
placeholders, count positional ones, and reject a mixture. -/
def analyse_placeholders (raw_sql : List Char) :
    Except MySQLServiceError (List Char × List String × Nat) :=
  let normalised_sql := colonSub raw_sql
  let named_params := extract_named_params normalised_sql
  let positional_count := countPositional normalised_sql
  if named_params ≠ [] ∧ positional_count ≠ 0 then
    .error (.parameter MIXED_STYLE_MSG [])
  else
    .ok (normalised_sql, named_params, positional_count)


/-- A JSON-ish universe for parameter and result values (the subset of
Python values the modelled code paths distinguish).  Driver-native scalar
types such as dates and decimals, which the source funnels through
`DjangoJSONEncoder`, are outside this universe. -/
inductive PyVal : Type where
  | int (n : Int)
  | str (s : String)
  | bool (b : Bool)
  | none
  | bytes (b : List Nat)
  | list (items : List PyVal)
  | dict (entries : List (String × PyVal))

/-- The caller-supplied parameter bag: a `Mapping` (insertion-ordered, as
a Python `dict`), an ordered `Sequence` (list/tuple), or a `str` value —
the latter is a Python `Sequence` that `_validate_params` explicitly
excludes from the positional branch. -/
inductive Params : Type where
  | mapping (entries : List (String × PyVal))
  | sequence (values : List PyVal)
  | text (s : String)

/-- Python truthiness of a parameter bag (`if params:`). -/
def Params.isTruthy : Params → Bool
  | .mapping m => !m.isEmpty
  | .sequence vs => !vs.isEmpty
  | .text s => !(s == "")

/-- The value `_validate_params` returns: a tuple for positional
parameters, the caller's mapping for named ones, or `None`. -/
inductive BoundParams : Type where
  | tuple (values : List PyVal)
  | mapping (entries : List (String × PyVal))
  | none

/-- Message of the positional branch when `params is None` (verbatim). -/
def POS_NONE_MSG (positional_count : Nat) : String :=
  "API bajarish uchun " ++ toString positional_count ++
    " ta pozitsion parametr talab etiladi, ammo hech qanday parametr yuborilmadi."

/-- Message of the positional branch for a non-list, non-mapping bag (verbatim). -/
def POS_SHAPE_MSG : String :=
  "Pozitsion parametrlar uchun ro'yxat yoki tuple ko'rinishidagi `params` kutilgan."

/-- Message of the positional count mismatch (verbatim). -/
def POS_COUNT_MSG (positional_count received : Nat) : String :=
  "API bajarish uchun " ++ toString positional_count ++
    " ta pozitsion parametr talab etiladi, ammo " ++ toString received ++ " ta qiymat yuborildi."

/-- Message of the zero-parameter branch when extras are supplied (verbatim). -/
def NO_PARAMS_MSG (extras : String) : String :=
  "Ushbu API so'rov parametrlarni qabul qilmaydi, ammo quyidagilar yuborildi: " ++ extras

/-- Message of the named branch when `params is None` (verbatim). -/
def NAMED_NONE_MSG (missing_sorted : List String) : String :=
  "API nomlangan parametrlar talab qiladi. Quyidagilar yetishmaydi: " ++
    String.intercalate ", " missing_sorted

/-- Message of the named branch for a non-mapping bag (verbatim). -/
def NAMED_SHAPE_MSG : String :=
  "Nomlangan parametrlar uchun dict yoki mapping ko'rinishidagi `params` kutilgan."

/-- Message of the named branch when required names are absent (verbatim). -/
def NAMED_MISSING_MSG (missing_sorted : List String) : String :=
  "API bajarish uchun quyidagi parametrlar yetishmaydi: " ++
    String.intercalate ", " missing_sorted

/-- `_validate_params`: check the caller's parameter bag against the
placeholder classification.  `required_named_params` is the canonical
(sorted, duplicate-free) representation of the Python set.  The
`normalised_sql` argument is unused, as in the source. -/
def _validate_params (_normalised_sql : List Char) (required_named_params : List String)
    (positional_count : Nat) (params : Option Params) :
    Except MySQLServiceError BoundParams :=
  if positional_count ≠ 0 then
    match params with
    | Option.none => .error (.parameter (POS_NONE_MSG positional_count) [])
    | some (.mapping m) =>
        let ordered_values := m.map Prod.snd
        if ordered_values.length ≠ positional_count then
          .error (.parameter (POS_COUNT_MSG positional_count ordered_values.length) [])
        else .ok (.tuple ordered_values)
    | some (.sequence vs) =>
        if vs.length ≠ positional_count then
          .error (.parameter (POS_COUNT_MSG positional_count vs.length) [])
        else .ok (.tuple vs)
    | some (.text _) => .error (.parameter POS_SHAPE_MSG [])
  else if required_named_params.isEmpty then
    match params with
    | Option.none => .ok .none
    | some p =>
        if p.isTruthy then
          let extras :=
            match p with
            | .mapping m => String.intercalate ", " (pySorted (m.map Prod.fst))
            | .sequence vs => toString vs.length ++ " ta pozitsion qiymat"
            | .text s => toString s.length ++ " ta pozitsion qiymat"
          .error (.parameter (NO_PARAMS_MSG extras) [])
        else .ok .none
  else
    match params with
    | Option.none =>
        let missing_sorted := pySorted required_named_params
        .error (.parameter (NAMED_NONE_MSG missing_sorted) missing_sorted)
    | some (.mapping m) =>
        let missing := required_named_params.filter (fun nm => !(m.map Prod.fst).contains nm)
        if missing.isEmpty then .ok (.mapping m)
        else
          let missing_sorted := pySorted missing
          .error (.parameter (NAMED_MISSING_MSG missing_sorted) missing_sorted)
    | some _ => .error (.parameter NAMED_SHAPE_MSG [])

/-- The target-specific environment variable name for a key
(`MYSQL_{target.name.upper()}_{key}`). -/
def specificKey (target : MySQLDatabase) (key : String) : String :=
  "MYSQL_" ++ target.name ++ "_" ++ key

/-- The generic environment variable name for a key (`MYSQL_{key}`). -/
def genericKey (key : String) : String := "MYSQL_" ++ key

/-- A process environment: `os.getenv` returns `none` for an unset
variable. -/
def Env : Type := String → Option String

/-- `some v` only when the variable is set to a non-empty value
(the `is not None and != ''` test of `_get_env`). -/
def setNonEmpty : Option String → Option String
  | some v => if v = "" then Option.none else some v
  | Option.none => Option.none

/-- The value `_get_env` returns: the specific variable if set and
non-empty, else `os.getenv(generic_key, default)` — note that when the
specific and generic tiers are unset or empty the fallback itself
(the generic value, or the default when the generic variable is unset)
is still returned. -/
def getEnvValue (env : Env) (target : MySQLDatabase) (key : String)
    (default : Option String) : Option String :=
  match setNonEmpty (env (specificKey target key)) with
  | some v => some v
  | Option.none =>
      match env (genericKey key) with
      | some fb => some fb
      | Option.none => default

/-- Whether `_get_env` with `required=True` records the key as missing:
both the specific and the generic variable are unset or empty
(for mandatory keys the default is `None`). -/
def getEnvMissing (env : Env) (target : MySQLDatabase) (key : String) : Bool :=
  (setNonEmpty (env (specificKey target key))).isNone &&
    (setNonEmpty (env (genericKey key))).isNone

/-- Python `value or default` on an optional string: the default replaces
both `None` and the empty string. -/
def pyOr (v : Option String) (default : String) : String :=
  match v with
  | some s => if s = "" then default else s
  | Option.none => default

/-- Python `int(...)` on the strings this code path can see: optional
surrounding spaces, an optional sign, then at least one digit.
(Underscore separators of Python's `int` are not modelled; no claim
exercises them.) -/
def pyInt? (s : String) : Option Int :=
  let t := (s.toList.dropWhile (· = ' ')).reverse.dropWhile (· = ' ') |>.reverse
  let (sign, digits) :=
    match t with
    | '-' :: rest => (-1, rest)
    | '+' :: rest => (1, rest)
    | _ => ((1 : Int), t)
  if digits ≠ [] ∧ digits.all Char.isDigit then
    some (sign * (digits.foldl (fun acc c => acc * 10 + (c.toNat - '0'.toNat)) 0 : Nat))
  else Option.none

/-- Message of the missing-configuration failure (verbatim). -/
def CONFIG_MISSING_MSG (missing : List String) : String :=
  "MySQL sozlamalari to'liq emas. Quyidagi muhit o'zgaruvchilaridan kamida bittasi kerakli qiymatga ega bo'lishi zarur: " ++
    String.intercalate ", " missing

/-- Message of the invalid-port failure (verbatim). -/
def BAD_PORT_MSG (port_raw : String) : String :=
  "MYSQL_PORT butun son bo'lishi kerak. Olingan qiymat: " ++ port_raw

/-- The candidate variable names recorded for one missing mandatory key:
the specific name first, then the generic one, as `missing.extend` does. -/
def missingPair (env : Env) (target : MySQLDatabase) (key : String) : List String :=
  if getEnvMissing env target key then [specificKey target key, genericKey key] else []

/-- `_collect_config`: resolve the connection configuration for a target
from the environment.  The three mandatory keys are probed first (each
missing one contributing both candidate variable names, in probe order);
a single failure reports them all.  `host`/`user`/`database` are only
read in the branch where the missing list is empty, where `_get_env`
cannot have returned `None`/empty (the `.getD ""` defaults are
unreachable, mirroring the source's reliance on the same invariant). -/
def _collect_config (env : Env) (target : MySQLDatabase) :
    Except MySQLServiceError MySQLConfig :=
  let missing := missingPair env target "HOST" ++ missingPair env target "USER" ++
    missingPair env target "DATABASE"
  if missing ≠ [] then .error (.configuration (CONFIG_MISSING_MSG missing))
  else
    let host := (getEnvValue env target "HOST" Option.none).getD ""
    let user := (getEnvValue env target "USER" Option.none).getD ""
    let database := (getEnvValue env target "DATABASE" Option.none).getD ""
    let password := (getEnvValue env target "PASSWORD" (some "")).getD ""
    let port_raw := pyOr (getEnvValue env target "PORT" (some "3306")) "3306"
    let charset := pyOr (getEnvValue env target "CHARSET" (some "utf8mb4")) "utf8mb4"
    match pyInt? port_raw with
    | some port => .ok ⟨host, user, password, database, port, charset⟩
    | Option.none => .error (.configuration (BAD_PORT_MSG port_raw))

/-- The standard base64 alphabet used by Python's `base64.b64encode`. -/
def b64chars : List Char :=
  "ABCDEFGHIJKLMNOPQRSTUVWXYZabcdefghijklmnopqrstuvwxyz0123456789+/".toList

/-- The alphabet character at a 6-bit index. -/
def b64idx (i : Nat) : Char := b64chars.getD i 'A'

/-- The 6-bit index of an alphabet character (64 when absent). -/
def b64val (c : Char) : Nat := b64chars.indexOf c

/-- `base64.b64encode` over a byte sequence: 3-byte groups become 4
alphabet characters; a trailing group of 1 or 2 bytes is padded with
`=`. -/
def b64encode : List Nat → List Char
  | [] => []
  | [a] =>
      let n := a * 65536
      [b64idx (n / 262144 % 64), b64idx (n / 4096 % 64), '=', '=']
  | [a, b] =>
      let n := a * 65536 + b * 256
      [b64idx (n / 262144 % 64), b64idx (n / 4096 % 64), b64idx (n / 64 % 64), '=']
  | a :: b :: c :: rest =>
      let n := a * 65536 + b * 256 + c
      b64idx (n / 262144 % 64) :: b64idx (n / 4096 % 64) :: b64idx (n / 64 % 64) ::
        b64idx (n % 64) :: b64encode rest

/-- `base64.b64decode` on well-formed input: each 4-character group
yields 3 bytes, or fewer when `=`-padded. -/
def b64decode : List Char → List Nat
  | c0 :: c1 :: c2 :: c3 :: rest =>
      if c2 = '=' then
        [(b64val c0 * 262144 + b64val c1 * 4096) / 65536]
      else if c3 = '=' then
        let n := b64val c0 * 262144 + b64val c1 * 4096 + b64val c2 * 64
        [n / 65536, n / 256 % 256]
      else
        let n := b64val c0 * 262144 + b64val c1 * 4096 + b64val c2 * 64 + b64val c3
        n / 65536 :: n / 256 % 256 :: n % 256 :: b64decode rest
  | _ => []

/-- `_to_json_safe`: bytes become base64 text, mappings and sequences are
encoded recursively (tuples become lists), and the remaining scalars of
the modelled universe (`int`, `str`, `bool`, `None`) pass through the
`json.dumps`/`json.loads` round trip unchanged. -/
def _to_json_safe : PyVal → PyVal
  | .bytes b => .str ⟨b64encode b⟩
  | .dict entries => .dict (toJsonSafeEntries entries)
  | .list items => .list (toJsonSafeList items)
  | v => v
where
  /-- The dictionary comprehension of `_to_json_safe`. -/
  toJsonSafeEntries : List (String × PyVal) → List (String × PyVal)
    | [] => []
    | (k, v) :: rest => (k, _to_json_safe v) :: toJsonSafeEntries rest
  /-- The list comprehension of `_to_json_safe`. -/
  toJsonSafeList : List PyVal → List PyVal
    | [] => []
    | v :: rest => _to_json_safe v :: toJsonSafeList rest

/-- The part of `execute_raw_sql` that runs before any connection is
attempted: placeholder analysis, parameter validation, then
configuration resolution.  On success it returns exactly the data the
source would hand to `pymysql.connect` and `cursor.execute`: the
normalised SQL, the bound parameters and the resolved configuration. -/
def execute_raw_sql_prepare (raw_sql : List Char) (params : Option Params)
    (env : Env) (target : MySQLDatabase) :
    Except MySQLServiceError (List Char × BoundParams × MySQLConfig) := do
  let (normalised_sql, required_named_params, positional_count) ← analyse_placeholders raw_sql
  let bound ← _validate_params normalised_sql required_named_params positional_count params
  let config ← _collect_config env target
  return (normalised_sql, bound, config)

/-- Scanner deciding that a text holds no occurrence of the colon
pattern `(?<!:):` followed by a word-start character.  `some p` mirrors
the plain state (`p`: previous character is `:`); `none` means the
previous character was a `:` whose lookbehind succeeded, so a word-start
character here would be a match. -/
def noColonMatchAux : Option Bool → List Char → Bool
  | some _, [] => true
  | some p, c :: cs =>
      if c = ':' then
        if p then noColonMatchAux (some true) cs else noColonMatchAux Option.none cs
      else noColonMatchAux (some false) cs
  | Option.none, [] => true
  | Option.none, c :: cs =>
      if isWordStart c then false
      else if c = ':' then noColonMatchAux (some true) cs
      else noColonMatchAux (some false) cs

/-- Modelled from the spec's words, for comparison with the source's
count: the number of bare `%s` markers obtained by tokenizing the text
left to right, where a doubled `%%` (an escaped literal marker) is
consumed as one never-counted token and every `%s` token is counted. -/
def specTokenizedBareCount : List Char → Nat
  | '%' :: '%' :: rest => specTokenizedBareCount rest
  | '%' :: 's' :: rest => 1 + specTokenizedBareCount rest
  | _ :: rest => specTokenizedBareCount rest
  | [] => 0

/-- Modelled from the spec's resolution order, for comparison with the
source's `_collect_config`: per key, the target-specific variable if set
and non-empty, else the generic variable if set and non-empty, else the
given default (`none` for a key with no built-in default). -/
def resolveKeySpec (env : Env) (target : MySQLDatabase) (key : String)
    (default : Option String) : Option String :=
  match setNonEmpty (env (specificKey target key)) with
  | some v => some v
  | Option.none =>
      match setNonEmpty (env (genericKey key)) with
      | some v => some v
      | Option.none => default


theorem charsLe_total (a b : List Char) : charsLe a b = true ∨ charsLe b a = true := by
  induction a generalizing b with
  | nil => left; rfl
  | cons x xs ih =>
    cases b with
    | nil => right; rfl
    | cons y ys =>
      simp only [charsLe]
      rcases Nat.lt_trichotomy x.toNat y.toNat with h | h | h
      · left; simp [h]
      · have hxy : ¬ x.toNat < y.toNat := by omega
        have hyx : ¬ y.toNat < x.toNat := by omega
        simp [hxy, hyx, h]
        exact ih ys
      · right; simp [h]

theorem charsLe_trans (a b c : List Char) (hab : charsLe a b = true)
    (hbc : charsLe b c = true) : charsLe a c = true := by
  induction a generalizing b c with
  | nil => rfl
  | cons x xs ih =>
    cases b with
    | nil => exact absurd hab (by simp [charsLe])
    | cons y ys =>
      cases c with
      | nil => exact absurd hbc (by simp [charsLe])
      | cons z zs =>
        simp only [charsLe] at hab hbc ⊢
        by_cases h1 : x.toNat < y.toNat
        · by_cases h2 : y.toNat < z.toNat
          · simp [show x.toNat < z.toNat by omega]
          · simp [h2] at hbc
            by_cases h2e : y.toNat = z.toNat
            · simp [show x.toNat < z.toNat by omega]
            · simp [h2e] at hbc
        · simp [h1] at hab
          by_cases h1e : x.toNat = y.toNat
          · simp [h1e] at hab
            by_cases h2 : y.toNat < z.toNat
            · simp [show x.toNat < z.toNat by omega]
            · simp [h2] at hbc
              by_cases h2e : y.toNat = z.toNat
              · have hnlt : ¬ x.toNat < z.toNat := by omega
                simp [hnlt, show x.toNat = z.toNat by omega]
                exact ih ys zs hab hbc.2
              · simp [h2e] at hbc
          · simp [h1e] at hab

theorem strLe_total (a b : String) : strLe a b = true ∨ strLe b a = true :=
  charsLe_total a.toList b.toList

theorem strLe_trans (a b c : String) (hab : strLe a b = true) (hbc : strLe b c = true) :
    strLe a c = true :=
  charsLe_trans a.toList b.toList c.toList hab hbc

theorem insSorted_perm (x : String) (l : List String) :
    List.Perm (insSorted x l) (x :: l) := by
  induction l with
  | nil => exact List.Perm.refl _
  | cons y ys ih =>
    simp only [insSorted]
    split
    · exact List.Perm.refl _
    · exact (ih.cons y).trans (List.Perm.swap x y ys)

theorem pySorted_perm (l : List String) : List.Perm (pySorted l) l := by
  induction l with
  | nil => exact List.Perm.refl _
  | cons x xs ih => exact (insSorted_perm x (pySorted xs)).trans (ih.cons x)

theorem insSorted_pairwise (x : String) (l : List String)
    (h : l.Pairwise (fun a b => strLe a b = true)) :
    (insSorted x l).Pairwise (fun a b => strLe a b = true) := by
  induction l with
  | nil => simp [insSorted]
  | cons y ys ih =>
    simp only [insSorted]
    split
    · rename_i hxy
      refine List.Pairwise.cons ?_ h
      intro z hz
      rcases List.mem_cons.mp hz with rfl | hz'
      · exact hxy
      · exact strLe_trans x y z hxy (List.rel_of_pairwise_cons h hz')
    · rename_i hxy
      have hyx : strLe y x = true := by
        rcases strLe_total x y with h' | h'
        · exact absurd h' hxy
        · exact h'
      obtain ⟨hy, hys⟩ := List.pairwise_cons.mp h
      refine List.Pairwise.cons ?_ (ih hys)
      intro z hz
      rcases List.mem_cons.mp ((insSorted_perm x ys).mem_iff.mp hz) with rfl | hz'
      · exact hyx
      · exact hy z hz'

theorem pySorted_pairwise (l : List String) :
    (pySorted l).Pairwise (fun a b => strLe a b = true) := by
  induction l with
  | nil => simp [pySorted]
  | cons x xs ih => exact insSorted_pairwise x (pySorted xs) ih

theorem pySorted_nodup (l : List String) (h : l.Nodup) : (pySorted l).Nodup :=
  (pySorted_perm l).nodup_iff.mpr h

/-- C1: whenever the analysis of a raw SQL string yields both a non-empty
named-parameter set and a non-zero positional count, `analyse_placeholders`
fails with the mixed-placeholder-style `Parameter` error (for every such
text, hence regardless of the order of the two styles), and the whole
execution pipeline fails with that same error for every environment,
target and parameter bag — so the failure precedes configuration
resolution and any connection attempt. -/
theorem c1_mixed_style_parameter_error (raw_sql : List Char)
    (h : extract_named_params (colonSub raw_sql) ≠ [] ∧
      countPositional (colonSub raw_sql) ≠ 0) :
    analyse_placeholders raw_sql = .error (.parameter MIXED_STYLE_MSG []) ∧
    ∀ (env : Env) (target : MySQLDatabase) (params : Option Params),
      execute_raw_sql_prepare raw_sql params env target =
        .error (.parameter MIXED_STYLE_MSG []) := by
  have h1 : analyse_placeholders raw_sql = .error (.parameter MIXED_STYLE_MSG []) := by
    unfold analyse_placeholders
    simp [h.1, h.2]
  refine ⟨h1, fun env target params => ?_⟩
  unfold execute_raw_sql_prepare
  rw [h1]
  rfl

/-- Witness for C1 at a SQL text holding a named and a positional
placeholder. -/
theorem c1_witness :
    (extract_named_params (colonSub "a = %(id)s AND b = %s".toList) ≠ [] ∧
      countPositional (colonSub "a = %(id)s AND b = %s".toList) ≠ 0) ∧
    analyse_placeholders "a = %(id)s AND b = %s".toList =
      .error (.parameter MIXED_STYLE_MSG []) ∧
    execute_raw_sql_prepare "a = %(id)s AND b = %s".toList Option.none
        (fun _ => Option.none) .main =
      .error (.parameter MIXED_STYLE_MSG []) := by
  have h := c1_mixed_style_parameter_error "a = %(id)s AND b = %s".toList
    ⟨by decide, by decide⟩
  exact ⟨⟨by decide, by decide⟩, h.1, h.2 (fun _ => Option.none) .main Option.none⟩

/-- C4: with a positive positional count, `_validate_params` accepts
exactly a sequence — or a mapping, whose values are taken in iteration
order — of exactly that many elements, returning the values as a tuple;
a wrong count fails with the count-mismatch `Parameter` error naming the
expected and received counts, and an absent or non-sequence bag fails
with a `Parameter` error as well. -/
theorem c4_validate_positional (normalised_sql : List Char) (required : List String)
    (positional_count : Nat) (hn : 0 < positional_count) :
    (_validate_params normalised_sql required positional_count Option.none =
        .error (.parameter (POS_NONE_MSG positional_count) [])) ∧
    (∀ s, _validate_params normalised_sql required positional_count (some (.text s)) =
        .error (.parameter POS_SHAPE_MSG [])) ∧
    (∀ vs, vs.length = positional_count →
        _validate_params normalised_sql required positional_count (some (.sequence vs)) =
          .ok (.tuple vs)) ∧
    (∀ vs, vs.length ≠ positional_count →
        _validate_params normalised_sql required positional_count (some (.sequence vs)) =
          .error (.parameter (POS_COUNT_MSG positional_count vs.length) [])) ∧
    (∀ m, m.length = positional_count →
        _validate_params normalised_sql required positional_count (some (.mapping m)) =
          .ok (.tuple (m.map Prod.snd))) ∧
    (∀ m, m.length ≠ positional_count →
        _validate_params normalised_sql required positional_count (some (.mapping m)) =
          .error (.parameter (POS_COUNT_MSG positional_count m.length) [])) := by
  have hne : positional_count ≠ 0 := Nat.pos_iff_ne_zero.mp hn
  refine ⟨?_, ?_, ?_, ?_, ?_, ?_⟩
  · simp [_validate_params, hne]
  · intro s; simp [_validate_params, hne]
  · intro vs hvs; simp [_validate_params, hne, hvs]
  · intro vs hvs; simp [_validate_params, hne, hvs]
  · intro m hm; simp [_validate_params, hne, hm]
  · intro m hm; simp [_validate_params, hne, hm]

/-- Witness for C4 at the spec's example: two positional slots, a
three-element sequence, failure names expected 2 and received 3. -/
theorem c4_witness :
    (0 < 2) ∧
    _validate_params [] [] 2 (some (.sequence [.int 7, .int 8, .int 9])) =
      .error (.parameter (POS_COUNT_MSG 2 3) []) ∧
    _validate_params [] [] 2 (some (.sequence [.int 7, .int 8])) =
      .ok (.tuple [.int 7, .int 8]) := by
  have h := c4_validate_positional [] [] 2 (by decide)
  exact ⟨by decide, h.2.2.2.1 [.int 7, .int 8, .int 9] (by decide),
    h.2.2.1 [.int 7, .int 8] rfl⟩


/-- The named-mapping branch of `_validate_params`, as a single equation. -/
theorem validate_named_mapping (normalised_sql : List Char) (required : List String)
    (m : List (String × PyVal)) (hne : required.isEmpty = false) :
    _validate_params normalised_sql required 0 (some (.mapping m)) =
      (if (required.filter (fun nm => !(m.map Prod.fst).contains nm)).isEmpty then
        .ok (.mapping m)
       else .error (.parameter
         (NAMED_MISSING_MSG
           (pySorted (required.filter (fun nm => !(m.map Prod.fst).contains nm))))
         (pySorted (required.filter (fun nm => !(m.map Prod.fst).contains nm))))) := by
  unfold _validate_params
  simp [hne]

/-- C5: in named mode (non-empty required set, zero positional count),
an absent bag fails carrying every required name, and a mapping lacking
some required name fails carrying exactly the absent names — in both
cases the names are attached to the error value's structured
`missing_params` field as a sorted (by Python string order),
duplicate-free list, not merely interpolated into the message. -/
theorem c5_validate_named_missing (normalised_sql : List Char) (required : List String)
    (hreq : required ≠ []) (hnd : required.Nodup) :
    (_validate_params normalised_sql required 0 Option.none =
        .error (.parameter (NAMED_NONE_MSG (pySorted required)) (pySorted required)) ∧
      (pySorted required).Pairwise (fun a b => strLe a b = true) ∧
      (pySorted required).Nodup) ∧
    (∀ m, required.filter (fun nm => !(m.map Prod.fst).contains nm) ≠ [] →
      _validate_params normalised_sql required 0 (some (.mapping m)) =
          .error (.parameter
            (NAMED_MISSING_MSG
              (pySorted (required.filter (fun nm => !(m.map Prod.fst).contains nm))))
            (pySorted (required.filter (fun nm => !(m.map Prod.fst).contains nm)))) ∧
        (pySorted (required.filter (fun nm => !(m.map Prod.fst).contains nm))).Pairwise
          (fun a b => strLe a b = true) ∧
        (pySorted (required.filter (fun nm => !(m.map Prod.fst).contains nm))).Nodup) := by
  have hne : ¬ required.isEmpty := by
    cases required with
    | nil => exact absurd rfl hreq
    | cons a l => simp
  constructor
  · refine ⟨?_, pySorted_pairwise required, pySorted_nodup required hnd⟩
    simp [_validate_params, hne]
  · intro m hm
    refine ⟨?_, pySorted_pairwise _, pySorted_nodup _ (hnd.filter _)⟩
    have hm' : (required.filter (fun nm => !(m.map Prod.fst).contains nm)).isEmpty = false := by
      cases hfe : required.filter (fun nm => !(m.map Prod.fst).contains nm) with
      | nil => exact absurd hfe hm
      | cons a l => simp
    rw [validate_named_mapping normalised_sql required m (by simpa using hne),
      if_neg (by rw [hm']; exact Bool.false_ne_true)]

/-- Witness for C5 at the spec's example: required `{id, status}`, params
`{id: 5}`, failure carries `missing_params = [status]`. -/
theorem c5_witness :
    ((["id", "status"] : List String) ≠ [] ∧ (["id", "status"] : List String).Nodup) ∧
    _validate_params [] ["id", "status"] 0 (some (.mapping [("id", .int 5)])) =
      .error (.parameter (NAMED_MISSING_MSG ["status"]) ["status"]) := by
  have h := (c5_validate_named_missing [] ["id", "status"] (by decide) (by decide)).2
    [("id", .int 5)] (by decide)
  exact ⟨⟨by decide, by decide⟩, h.1⟩

/-- C6: on a zero-parameter statement (no positional slots, empty
required set) `_validate_params` succeeds with the no-parameter marker
exactly when the bag is absent or empty; any non-empty bag fails with a
`Parameter` error naming the extras — the sorted key names for a
mapping, the count of values for a sequence (or string). -/
theorem c6_validate_zero_params (normalised_sql : List Char) :
    (_validate_params normalised_sql [] 0 Option.none = .ok .none) ∧
    (∀ p : Params, p.isTruthy = false →
      _validate_params normalised_sql [] 0 (some p) = .ok .none) ∧
    (∀ m, m ≠ [] →
      _validate_params normalised_sql [] 0 (some (.mapping m)) =
        .error (.parameter
          (NO_PARAMS_MSG (String.intercalate ", " (pySorted (m.map Prod.fst)))) [])) ∧
    (∀ vs : List PyVal, vs ≠ [] →
      _validate_params normalised_sql [] 0 (some (.sequence vs)) =
        .error (.parameter
          (NO_PARAMS_MSG (toString vs.length ++ " ta pozitsion qiymat")) [])) ∧
    (∀ s : String, s ≠ "" →
      _validate_params normalised_sql [] 0 (some (.text s)) =
        .error (.parameter
          (NO_PARAMS_MSG (toString s.length ++ " ta pozitsion qiymat")) [])) := by
  refine ⟨by simp [_validate_params], ?_, ?_, ?_, ?_⟩
  · intro p hp; simp [_validate_params, hp]
  · intro m hm
    have ht : (Params.mapping m).isTruthy = true := by
      cases m with
      | nil => exact absurd rfl hm
      | cons a l => simp [Params.isTruthy]
    simp [_validate_params, ht]
  · intro vs hvs
    have ht : (Params.sequence vs).isTruthy = true := by
      cases vs with
      | nil => exact absurd rfl hvs
      | cons a l => simp [Params.isTruthy]
    simp [_validate_params, ht]
  · intro s hs
    have ht : (Params.text s).isTruthy = true := by
      simp [Params.isTruthy]
      exact hs
    simp [_validate_params, ht]

/-- Witness for C6: a non-empty mapping on a zero-parameter statement is
rejected naming its keys; an empty mapping and an absent bag are
accepted. -/
theorem c6_witness :
    (([("b", PyVal.int 1), ("a", PyVal.int 2)] : List (String × PyVal)) ≠ []) ∧
    _validate_params [] [] 0 (some (.mapping [("b", .int 1), ("a", .int 2)])) =
      .error (.parameter (NO_PARAMS_MSG "a, b") []) ∧
    _validate_params [] [] 0 (some (.mapping [])) = .ok .none ∧
    _validate_params [] [] 0 Option.none = .ok .none := by
  have h := c6_validate_zero_params []
  refine ⟨List.cons_ne_nil _ _, ?_, h.2.1 (.mapping []) rfl, h.1⟩
  have h2 := h.2.2.1 [("b", .int 1), ("a", .int 2)] (List.cons_ne_nil _ _)
  rw [h2]
  rfl

/-- C10: in named mode a mapping containing every required name plus
extra keys is accepted, and `_validate_params` returns the given mapping
itself unchanged, extra keys included. -/
theorem c10_validate_named_extras (normalised_sql : List Char) (required : List String)
    (m : List (String × PyVal)) (hreq : required ≠ [])
    (hsub : ∀ nm ∈ required, nm ∈ m.map Prod.fst) :
    _validate_params normalised_sql required 0 (some (.mapping m)) = .ok (.mapping m) := by
  have hne : ¬ required.isEmpty := by
    cases required with
    | nil => exact absurd rfl hreq
    | cons a l => simp
  have hfil : required.filter (fun nm => !(m.map Prod.fst).contains nm) = [] := by
    rw [List.filter_eq_nil_iff]
    intro nm hnm
    simpa using hsub nm hnm
  rw [validate_named_mapping normalised_sql required m (by simpa using hne),
    if_pos (by rw [hfil]; rfl)]

/-- Witness for C10: a mapping with the required name and an extra key is
returned unchanged. -/
theorem c10_witness :
    ((["id"] : List String) ≠ [] ∧
      ∀ nm ∈ (["id"] : List String),
        nm ∈ ([("id", PyVal.int 1), ("extra", PyVal.str "x")].map Prod.fst)) ∧
    _validate_params [] ["id"] 0
        (some (.mapping [("id", .int 1), ("extra", .str "x")])) =
      .ok (.mapping [("id", .int 1), ("extra", .str "x")]) := by
  refine ⟨⟨by decide, by decide⟩, ?_⟩
  exact c10_validate_named_extras [] ["id"] [("id", .int 1), ("extra", .str "x")]
    (by decide) (by decide)


theorem getEnvMissing_iff_resolveNone (env : Env) (target : MySQLDatabase) (key : String) :
    getEnvMissing env target key = true ↔
      resolveKeySpec env target key Option.none = Option.none := by
  unfold getEnvMissing resolveKeySpec
  cases setNonEmpty (env (specificKey target key)) <;>
    cases setNonEmpty (env (genericKey key)) <;> simp

theorem getEnvValue_eq_resolve_of_not_missing (env : Env) (target : MySQLDatabase)
    (key : String) (h : getEnvMissing env target key = false) :
    getEnvValue env target key Option.none = resolveKeySpec env target key Option.none := by
  unfold getEnvMissing at h
  unfold getEnvValue resolveKeySpec
  cases hs : setNonEmpty (env (specificKey target key)) with
  | some v => rfl
  | none =>
    rw [hs] at h
    simp at h
    cases hg : env (genericKey key) with
    | none => simp [setNonEmpty] at h; rw [hg] at h; simp [setNonEmpty] at h
    | some fb =>
      rw [hg] at h
      simp [setNonEmpty] at h
      simp [hg, setNonEmpty, h]

theorem getEnvValue_emptyDefault_getD (env : Env) (target : MySQLDatabase) (key : String) :
    (getEnvValue env target key (some "")).getD "" =
      (resolveKeySpec env target key Option.none).getD "" := by
  unfold getEnvValue resolveKeySpec
  cases setNonEmpty (env (specificKey target key)) with
  | some v => rfl
  | none =>
    cases hg : env (genericKey key) with
    | none => simp [setNonEmpty]
    | some fb =>
      by_cases hfb : fb = ""
      · simp [setNonEmpty, hfb]
      · simp [setNonEmpty, hfb]

theorem setNonEmpty_some_ne {o : Option String} {v : String}
    (h : setNonEmpty o = some v) : v ≠ "" := by
  unfold setNonEmpty at h
  cases o with
  | none => simp at h
  | some w =>
    by_cases hw : w = ""
    · simp [hw] at h
    · simp [hw] at h
      rw [← h]
      exact hw

theorem pyOr_getEnvValue_eq_resolve (env : Env) (target : MySQLDatabase) (key : String)
    (d : String) :
    pyOr (getEnvValue env target key (some d)) d =
      (resolveKeySpec env target key Option.none).getD d := by
  unfold getEnvValue resolveKeySpec
  cases hs : setNonEmpty (env (specificKey target key)) with
  | some v => simp [pyOr, setNonEmpty_some_ne hs]
  | none =>
    cases hg : env (genericKey key) with
    | none => simp [setNonEmpty, pyOr]
    | some fb =>
      by_cases hfb : fb = ""
      · simp [setNonEmpty, hfb, pyOr]
      · simp [setNonEmpty, hfb, pyOr]

theorem missingPair_eq_nil_iff (env : Env) (target : MySQLDatabase) (key : String) :
    missingPair env target key = [] ↔ getEnvMissing env target key = false := by
  unfold missingPair
  cases getEnvMissing env target key <;> simp

/-- C7: when any mandatory key (HOST, USER, DATABASE) resolves to nothing
from both tiers, `_collect_config` fails once with a `Configuration`
error whose message lists the full collected list of candidate variable
names, and that list contains both the target-specific and the generic
variable name of every missing mandatory key. -/
theorem c7_config_missing_lists_both (env : Env) (target : MySQLDatabase)
    (h : getEnvMissing env target "HOST" = true ∨ getEnvMissing env target "USER" = true ∨
      getEnvMissing env target "DATABASE" = true) :
    _collect_config env target = .error (.configuration (CONFIG_MISSING_MSG
      (missingPair env target "HOST" ++ missingPair env target "USER" ++
        missingPair env target "DATABASE"))) ∧
    ∀ key, (key = "HOST" ∨ key = "USER" ∨ key = "DATABASE") →
      getEnvMissing env target key = true →
      specificKey target key ∈
        (missingPair env target "HOST" ++ missingPair env target "USER" ++
          missingPair env target "DATABASE") ∧
      genericKey key ∈
        (missingPair env target "HOST" ++ missingPair env target "USER" ++
          missingPair env target "DATABASE") := by
  have hne : missingPair env target "HOST" ++ missingPair env target "USER" ++
      missingPair env target "DATABASE" ≠ [] := by
    rcases h with h | h | h <;> simp [missingPair, h]
  constructor
  · simp only [_collect_config]
    rw [if_pos hne]
  · intro key hkey hk
    have hpair : missingPair env target key = [specificKey target key, genericKey key] := by
      simp [missingPair, hk]
    rcases hkey with rfl | rfl | rfl <;>
      constructor <;> simp [hpair]

/-- Witness for C7 at the spec's example: an empty environment for
target `main`; the single failure lists `MYSQL_MAIN_HOST` and
`MYSQL_HOST` (with the other mandatory keys' candidates). -/
theorem c7_witness :
    (getEnvMissing (fun _ => Option.none) .main "HOST" = true ∨
      getEnvMissing (fun _ => Option.none) .main "USER" = true ∨
      getEnvMissing (fun _ => Option.none) .main "DATABASE" = true) ∧
    _collect_config (fun _ => Option.none) .main = .error (.configuration
      (CONFIG_MISSING_MSG ["MYSQL_MAIN_HOST", "MYSQL_HOST", "MYSQL_MAIN_USER", "MYSQL_USER",
        "MYSQL_MAIN_DATABASE", "MYSQL_DATABASE"])) ∧
    "MYSQL_MAIN_HOST" ∈ (missingPair (fun _ => Option.none) .main "HOST" ++
      missingPair (fun _ => Option.none) .main "USER" ++
      missingPair (fun _ => Option.none) .main "DATABASE") ∧
    "MYSQL_HOST" ∈ (missingPair (fun _ => Option.none) .main "HOST" ++
      missingPair (fun _ => Option.none) .main "USER" ++
      missingPair (fun _ => Option.none) .main "DATABASE") := by
  have h := c7_config_missing_lists_both (fun _ => Option.none) .main
    (Or.inl (by decide))
  have hm := h.2 "HOST" (Or.inl rfl) (by decide)
  exact ⟨Or.inl (by decide), by rw [h.1]; rfl, hm.1, hm.2⟩

/-- C8: each key is resolved in the order target-specific (set and
non-empty), then generic (set and non-empty), then the built-in default;
only PORT (3306) and CHARSET (utf8mb4) have a non-empty built-in
default — a successful configuration's host/user/database come straight
from the two tiers, its password degrades to the empty string when both
tiers are missing, and a mandatory key missing from both tiers means no
configuration is produced at all. -/
theorem c8_resolution_order_and_defaults (env : Env) (target : MySQLDatabase) :
    (∀ cfg, _collect_config env target = .ok cfg →
      some cfg.host = resolveKeySpec env target "HOST" Option.none ∧
      some cfg.user = resolveKeySpec env target "USER" Option.none ∧
      some cfg.database = resolveKeySpec env target "DATABASE" Option.none ∧
      cfg.password = (resolveKeySpec env target "PASSWORD" Option.none).getD "" ∧
      pyInt? ((resolveKeySpec env target "PORT" Option.none).getD "3306") = some cfg.port ∧
      cfg.charset = (resolveKeySpec env target "CHARSET" Option.none).getD "utf8mb4") ∧
    ((resolveKeySpec env target "HOST" Option.none = Option.none ∨
      resolveKeySpec env target "USER" Option.none = Option.none ∨
      resolveKeySpec env target "DATABASE" Option.none = Option.none) →
      ∀ cfg, _collect_config env target ≠ .ok cfg) := by
  constructor
  · intro cfg hok
    simp only [_collect_config] at hok
    split at hok
    · exact absurd hok (by simp)
    · rename_i hmiss
      have hnil : missingPair env target "HOST" ++ missingPair env target "USER" ++
          missingPair env target "DATABASE" = [] := by
        by_contra hc
        exact hmiss hc
      have hparts := List.append_eq_nil.mp hnil
      have hparts' := List.append_eq_nil.mp hparts.1
      have hH : getEnvMissing env target "HOST" = false :=
        (missingPair_eq_nil_iff env target "HOST").mp hparts'.1
      have hU : getEnvMissing env target "USER" = false :=
        (missingPair_eq_nil_iff env target "USER").mp hparts'.2
      have hD : getEnvMissing env target "DATABASE" = false :=
        (missingPair_eq_nil_iff env target "DATABASE").mp hparts.2
      split at hok
      · rename_i port hport
        rw [Except.ok.injEq] at hok
        subst hok
        have mand : ∀ key, getEnvMissing env target key = false →
            some ((getEnvValue env target key Option.none).getD "") =
              resolveKeySpec env target key Option.none := by
          intro key hk
          have hv := getEnvValue_eq_resolve_of_not_missing env target key hk
          have hs : resolveKeySpec env target key Option.none ≠ Option.none := by
            intro hn
            rw [← getEnvMissing_iff_resolveNone] at hn
            rw [hk] at hn
            exact Bool.false_ne_true hn
          obtain ⟨v, hveq⟩ := Option.ne_none_iff_exists'.mp hs
          rw [hv, hveq]
          rfl
        dsimp only
        refine ⟨mand "HOST" hH, mand "USER" hU, mand "DATABASE" hD,
          getEnvValue_emptyDefault_getD env target "PASSWORD", ?_, ?_⟩
        · rw [← pyOr_getEnvValue_eq_resolve env target "PORT" "3306"]
          exact hport
        · exact pyOr_getEnvValue_eq_resolve env target "CHARSET" "utf8mb4"
      · exact absurd hok (by simp)
  · intro hmiss cfg hok
    have hne : missingPair env target "HOST" ++ missingPair env target "USER" ++
        missingPair env target "DATABASE" ≠ [] := by
      rcases hmiss with h | h | h <;>
        rw [← getEnvMissing_iff_resolveNone] at h <;>
        simp [missingPair, h]
    simp only [_collect_config] at hok
    rw [if_pos hne] at hok
    exact absurd hok (by simp)

/-- Witness for C8 at a concrete environment: the specific HOST
overrides the generic one, USER falls back to the generic tier,
PASSWORD degrades to the empty string, PORT and CHARSET take their
built-in defaults; and dropping HOST entirely yields no configuration. -/
theorem c8_witness :
    _collect_config
        (fun k => if k = "MYSQL_MAIN_HOST" then some "h1"
          else if k = "MYSQL_HOST" then some "h2"
          else if k = "MYSQL_USER" then some "u"
          else if k = "MYSQL_MAIN_DATABASE" then some "d"
          else Option.none) .main =
      .ok ⟨"h1", "u", "", "d", 3306, "utf8mb4"⟩ ∧
    some "h1" = resolveKeySpec
        (fun k => if k = "MYSQL_MAIN_HOST" then some "h1"
          else if k = "MYSQL_HOST" then some "h2"
          else if k = "MYSQL_USER" then some "u"
          else if k = "MYSQL_MAIN_DATABASE" then some "d"
          else Option.none) .main "HOST" Option.none ∧
    (resolveKeySpec (fun _ => Option.none) .main "HOST" Option.none = Option.none →
      ∀ cfg, _collect_config (fun _ => Option.none) .main ≠ .ok cfg) := by
  have hok : _collect_config
      (fun k => if k = "MYSQL_MAIN_HOST" then some "h1"
        else if k = "MYSQL_HOST" then some "h2"
        else if k = "MYSQL_USER" then some "u"
        else if k = "MYSQL_MAIN_DATABASE" then some "d"
        else Option.none) .main = .ok ⟨"h1", "u", "", "d", 3306, "utf8mb4"⟩ := by rfl
  have h := (c8_resolution_order_and_defaults
      (fun k => if k = "MYSQL_MAIN_HOST" then some "h1"
        else if k = "MYSQL_HOST" then some "h2"
        else if k = "MYSQL_USER" then some "u"
        else if k = "MYSQL_MAIN_DATABASE" then some "d"
        else Option.none) .main).1 _ hok
  have h2 := (c8_resolution_order_and_defaults (fun _ => Option.none) .main).2
  exact ⟨hok, h.1, fun hn => h2 (Or.inl hn)⟩

theorem b64val_b64idx : ∀ i < 64, b64val (b64idx i) = i := by decide

theorem b64idx_ne_pad : ∀ i < 64, b64idx i ≠ '=' := by decide

theorem b64_roundtrip (b : List Nat) (h : ∀ x ∈ b, x < 256) :
    b64decode (b64encode b) = b := by
  induction b using b64encode.induct with
  | case1 => rfl
  | case2 a =>
    have ha : a < 256 := h a (by simp)
    simp only [b64encode, b64decode, if_true, ite_true]
    rw [b64val_b64idx _ (Nat.mod_lt _ (by decide)), b64val_b64idx _ (Nat.mod_lt _ (by decide))]
    simp only [List.cons.injEq, and_true]
    omega
  | case3 a b' =>
    have ha : a < 256 := h a (by simp)
    have hb : b' < 256 := h b' (by simp)
    have h2 : b64idx ((a * 65536 + b' * 256) / 64 % 64) ≠ '=' :=
      b64idx_ne_pad _ (Nat.mod_lt _ (by decide))
    simp only [b64encode, b64decode]
    rw [if_neg h2]
    simp only [if_true, ite_true]
    rw [b64val_b64idx _ (Nat.mod_lt _ (by decide)), b64val_b64idx _ (Nat.mod_lt _ (by decide)),
      b64val_b64idx _ (Nat.mod_lt _ (by decide))]
    simp only [List.cons.injEq, and_true]
    constructor <;> omega
  | case4 a b' c rest ih =>
    have ha : a < 256 := h a (by simp)
    have hb : b' < 256 := h b' (by simp)
    have hc : c < 256 := h c (by simp)
    have hrest : ∀ x ∈ rest, x < 256 := fun x hx => h x (by simp [hx])
    have h2 : b64idx ((a * 65536 + b' * 256 + c) / 64 % 64) ≠ '=' :=
      b64idx_ne_pad _ (Nat.mod_lt _ (by decide))
    have h3 : b64idx ((a * 65536 + b' * 256 + c) % 64) ≠ '=' :=
      b64idx_ne_pad _ (Nat.mod_lt _ (by decide))
    simp only [b64encode, b64decode]
    rw [if_neg h2, if_neg h3]
    rw [b64val_b64idx _ (Nat.mod_lt _ (by decide)), b64val_b64idx _ (Nat.mod_lt _ (by decide)),
      b64val_b64idx _ (Nat.mod_lt _ (by decide)), b64val_b64idx _ (Nat.mod_lt _ (by decide))]
    rw [ih hrest]
    simp only [List.cons.injEq, and_true]
    refine ⟨?_, ?_, ?_⟩ <;> omega

/-- C9: the Result Encoder maps a byte string to a base64 text string,
and base64-decoding that text reproduces the original bytes exactly, for
every byte sequence. -/
theorem c9_bytes_base64_roundtrip (b : List Nat) (h : ∀ x ∈ b, x < 256) :
    _to_json_safe (.bytes b) = .str ⟨b64encode b⟩ ∧ b64decode (b64encode b) = b := by
  constructor
  · simp [_to_json_safe]
  · exact b64_roundtrip b h

/-- Witness for C9 on a concrete four-byte value (one full group and one
padded group). -/
theorem c9_witness :
    (∀ x ∈ ([0, 255, 77, 1] : List Nat), x < 256) ∧
    _to_json_safe (.bytes [0, 255, 77, 1]) = .str ⟨b64encode [0, 255, 77, 1]⟩ ∧
    b64decode (b64encode [0, 255, 77, 1]) = [0, 255, 77, 1] := by
  have h := c9_bytes_base64_roundtrip [0, 255, 77, 1] (by decide)
  exact ⟨by decide, h.1, h.2⟩

theorem countPos_eq_bareSpec_aux (l : List Char) :
    countPosAux .p0 l = bareSpec false l ∧
    countPosAux .pct l = (if l.head? = some 's' then 1 else 0) + bareSpec true l ∧
    countPosAux .pctBlocked l = bareSpec true l := by
  induction l with
  | nil => exact ⟨rfl, rfl, rfl⟩
  | cons c cs ih =>
    refine ⟨?_, ?_, ?_⟩
    · simp only [countPosAux, bareSpec]
      by_cases hc : c = '%'
      · by_cases hh : cs.head? = some 's' <;> simp [hc, hh, ih.2.1]
      · have hb : (c == '%') = false := beq_eq_false_iff_ne.mpr hc
        simp [hc, hb, ih.1]
    · simp only [countPosAux, bareSpec]
      by_cases hs : c = 's'
      · simp [hs, ih.1]
      · by_cases hc : c = '%'
        · simp [hs, hc, ih.2.2]
        · have hb : (c == '%') = false := beq_eq_false_iff_ne.mpr hc
          simp [hs, hc, hb, ih.1]
    · simp only [countPosAux, bareSpec]
      by_cases hc : c = '%'
      · simp [hc, ih.2.2]
      · have hb : (c == '%') = false := beq_eq_false_iff_ne.mpr hc
        simp [hc, hb, ih.1]

theorem countPositional_eq_bareSpec (l : List Char) :
    countPositional l = bareSpec false l :=
  (countPos_eq_bareSpec_aux l).1


/-- C3 counterexample: on `%%%s` greedy escaped-token consumption leaves
a countable `%s` (one bare marker by the claim's tokenized reading), but
the code's lookbehind sees the raw preceding `%` character and
`analyse_placeholders` reports zero positional parameters. -/
theorem c3_counterexample :
    analyse_placeholders "%%%s".toList = .ok ("%%%s".toList, [], 0) ∧
    countPositional "%%%s".toList = 0 ∧
    specTokenizedBareCount "%%%s".toList = 1 :=
  ⟨rfl, rfl, rfl⟩

/-- C3 (amended): the positional count returned by
`analyse_placeholders` equals the number of `%s` occurrences in the
normalized text whose `%` is not immediately preceded by another `%`
character — so `%%s` counts 0, `a = %s` counts 1, `100%% AND x = %s`
counts 1, and `%%%s` counts 0 because the `%` of its `%s` is preceded by
a `%` even though that `%` belongs to an escaped pair; a marker followed
by a parenthesized name contributes nothing since its `%` is followed by
`(`, not `s`. -/
theorem c3_positional_count_amended (raw_sql norm : List Char) (named : List String)
    (cnt : Nat) (h : analyse_placeholders raw_sql = .ok (norm, named, cnt)) :
    norm = colonSub raw_sql ∧ cnt = bareSpec false norm := by
  simp only [analyse_placeholders] at h
  split at h
  · exact absurd h (by simp)
  · rw [Except.ok.injEq, Prod.mk.injEq, Prod.mk.injEq] at h
    obtain ⟨h1, _h2, h3⟩ := h
    subst h1
    subst h3
    exact ⟨rfl, countPositional_eq_bareSpec (colonSub raw_sql)⟩

/-- Witness for the amended C3 at the claim's own example
`100%% AND x = %s`: analysis succeeds with positional count 1, equal to
the window-based bare-marker count of the normalized text. -/
theorem c3_amended_witness :
    analyse_placeholders "100%% AND x = %s".toList =
      .ok ("100%% AND x = %s".toList, [], 1) ∧
    "100%% AND x = %s".toList = colonSub "100%% AND x = %s".toList ∧
    (1 : Nat) = bareSpec false "100%% AND x = %s".toList := by
  have h := c3_positional_count_amended "100%% AND x = %s".toList
    "100%% AND x = %s".toList [] 1 rfl
  exact ⟨rfl, h.1, h.2⟩


theorem isWordStart_colon_false : isWordStart ':' = false := by decide

theorem isWordChar_colon_false : isWordChar ':' = false := by decide

theorem ne_colon_of_wordStart {c : Char} (h : isWordStart c = true) : c ≠ ':' :=
  fun e => by rw [e] at h; exact absurd h (by decide)

theorem ne_colon_of_wordChar {c : Char} (h : isWordChar c = true) : c ≠ ':' :=
  fun e => by rw [e] at h; exact absurd h (by decide)

/-- On a text without a colon match, the rewrite is the identity (from
the `plain` state; from `pend` it merely restores the withheld `:`). -/
theorem colonSubAux_id_of_noMatch (l : List Char) :
    (∀ p, noColonMatchAux (some p) l = true → colonSubAux (.plain p) l = l) ∧
    (noColonMatchAux Option.none l = true → colonSubAux .pend l = ':' :: l) := by
  induction l with
  | nil => exact ⟨fun p _ => rfl, fun _ => rfl⟩
  | cons c cs ih =>
    constructor
    · intro p h
      by_cases hc : c = ':'
      · subst hc
        cases p with
        | true =>
          simp only [noColonMatchAux, if_pos rfl] at h
          simp only [colonSubAux, if_pos rfl]
          simp only [if_true] at h ⊢
          rw [ih.1 true (by simpa using h)]
        | false =>
          simp only [noColonMatchAux, if_pos rfl] at h
          simp only [colonSubAux, if_pos rfl]
          simp only [Bool.false_eq_true, if_false] at h ⊢
          exact ih.2 (by simpa using h)
      · simp only [noColonMatchAux, if_neg hc] at h
        simp only [colonSubAux, if_neg hc]
        rw [ih.1 false h]
    · intro h
      by_cases hw : isWordStart c = true
      · simp [noColonMatchAux, hw] at h
      · by_cases hc : c = ':'
        · subst hc
          simp only [noColonMatchAux, isWordStart_colon_false, Bool.false_eq_true,
            if_false, if_pos rfl, if_true] at h
          simp only [colonSubAux, isWordStart_colon_false, Bool.false_eq_true,
            if_false, if_pos rfl, if_true]
          rw [ih.1 true h]
        · simp only [noColonMatchAux, if_neg hw, if_neg hc] at h
          simp only [colonSubAux, if_neg hw, if_neg hc]
          rw [ih.1 false h]

/-- The output of the colon rewrite holds no remaining colon match, from
any machine state (the scanner state shown is the one with which the
scanner arrives at that part of the output). -/
theorem colonSubAux_noMatch (l : List Char) :
    (∀ p, noColonMatchAux (some p) (colonSubAux (.plain p) l) = true) ∧
    noColonMatchAux (some false) (colonSubAux .pend l) = true ∧
    noColonMatchAux (some false) (colonSubAux .name l) = true := by
  induction l with
  | nil => exact ⟨fun p => by cases p <;> rfl, rfl, rfl⟩
  | cons c cs ih =>
    refine ⟨?_, ?_, ?_⟩
    · intro p
      by_cases hc : c = ':'
      · subst hc
        cases p with
        | true =>
          simp only [colonSubAux, if_pos rfl, if_true]
          simp only [noColonMatchAux, if_pos rfl, if_true]
          exact ih.1 true
        | false =>
          simp only [colonSubAux, if_pos rfl, Bool.false_eq_true, if_false]
          exact ih.2.1
      · simp only [colonSubAux, if_neg hc]
        simp only [noColonMatchAux, if_neg hc]
        exact ih.1 false
    · by_cases hw : isWordStart c = true
      · have hc : c ≠ ':' := ne_colon_of_wordStart hw
        simp only [colonSubAux, if_pos hw]
        simp only [noColonMatchAux, if_neg (by decide : ¬('%' : Char) = ':'),
          if_neg (by decide : ¬('(' : Char) = ':'), if_neg hc]
        exact ih.2.2
      · by_cases hc : c = ':'
        · subst hc
          simp only [colonSubAux, isWordStart_colon_false, Bool.false_eq_true,
            if_false, if_pos rfl]
          simp only [noColonMatchAux, if_pos rfl, Bool.false_eq_true, if_false,
            isWordStart_colon_false]
          exact ih.1 true
        · simp only [colonSubAux, if_neg hw, if_neg hc]
          simp only [noColonMatchAux, if_pos rfl, Bool.false_eq_true, if_false,
            if_neg hw, if_neg hc]
          exact ih.1 false
    · by_cases hw : isWordChar c = true
      · have hc : c ≠ ':' := ne_colon_of_wordChar hw
        simp only [colonSubAux, if_pos hw]
        simp only [noColonMatchAux, if_neg hc]
        exact ih.2.2
      · by_cases hc : c = ':'
        · subst hc
          simp only [colonSubAux, isWordChar_colon_false, Bool.false_eq_true,
            if_false, if_pos rfl]
          simp only [noColonMatchAux, if_neg (by decide : ¬(')' : Char) = ':'),
            if_neg (by decide : ¬('s' : Char) = ':')]
          exact ih.2.1
        · simp only [colonSubAux, if_neg hw, if_neg hc]
          simp only [noColonMatchAux, if_neg (by decide : ¬(')' : Char) = ':'),
            if_neg (by decide : ¬('s' : Char) = ':'), if_neg hc]
          exact ih.1 false

/-- The colon rewrite is idempotent: its output holds no further
rewritable colon placeholder. -/
theorem colonSub_idem (l : List Char) : colonSub (colonSub l) = colonSub l :=
  (colonSubAux_id_of_noMatch (colonSub l)).1 false ((colonSubAux_noMatch l).1 false)

theorem bareSpec_cons_zero {q : Bool} {c : Char} {cs : List Char}
    (h : bareSpec q (c :: cs) = 0) :
    bareSpec (c == '%') cs = 0 ∧ ¬(c = '%' ∧ cs.head? = some 's' ∧ q = false) := by
  simp only [bareSpec] at h
  by_cases hg : ((c == '%') && (cs.head? == some 's') && !q) = true
  · rw [if_pos hg] at h
    omega
  · rw [if_neg hg] at h
    rw [Nat.zero_add] at h
    refine ⟨h, ?_⟩
    rintro ⟨h1, h2, h3⟩
    exact hg (by simp [h1, h2, h3])

theorem bareSpec_cons_zero_of {q : Bool} {c : Char} {cs : List Char}
    (hg : ¬(c = '%' ∧ cs.head? = some 's' ∧ q = false))
    (ht : bareSpec (c == '%') cs = 0) :
    bareSpec q (c :: cs) = 0 := by
  have hgb : ¬(((c == '%') && (cs.head? == some 's') && !q) = true) := by
    intro hb
    have hb' : (c = '%' ∧ cs.head? = some 's') ∧ q = false := by simpa using hb
    exact hg ⟨hb'.1.1, hb'.1.2, hb'.2⟩
  simp only [bareSpec]
  rw [if_neg hgb, Nat.zero_add]
  exact ht

theorem colonSubAux_head_ne_s (st : CSState) (l : List Char) (h : l.head? ≠ some 's') :
    (colonSubAux st l).head? ≠ some 's' := by
  cases st with
  | plain p =>
    cases l with
    | nil => simp [colonSubAux]
    | cons c cs =>
      by_cases hc : c = ':'
      · subst hc
        cases p with
        | true => simp [colonSubAux]
        | false =>
          simp only [colonSubAux, if_pos rfl, Bool.false_eq_true, if_false]
          cases cs with
          | nil => simp [colonSubAux]
          | cons c2 cs2 =>
            by_cases hw : isWordStart c2 = true
            · simp [colonSubAux, hw]
            · by_cases hc2 : c2 = ':'
              · subst hc2
                simp [colonSubAux, isWordStart_colon_false]
              · simp [colonSubAux, hw, hc2]
      · simp only [colonSubAux, if_neg hc]
        simpa using h
  | pend =>
    cases l with
    | nil => simp [colonSubAux]
    | cons c cs =>
      by_cases hw : isWordStart c = true
      · simp [colonSubAux, hw]
      · by_cases hc : c = ':'
        · subst hc
          simp [colonSubAux, isWordStart_colon_false]
        · simp [colonSubAux, hw, hc]
  | name =>
    cases l with
    | nil => simp [colonSubAux]
    | cons c cs =>
      by_cases hw : isWordChar c = true
      · simp only [colonSubAux, if_pos hw]
        simpa using h
      · by_cases hc : c = ':'
        · subst hc
          simp [colonSubAux, isWordChar_colon_false]
        · simp [colonSubAux, hw, hc]

theorem ne_pct_of_wordStart {c : Char} (h : isWordStart c = true) : c ≠ '%' :=
  fun e => by rw [e] at h; exact absurd h (by decide)

theorem ne_pct_of_wordChar {c : Char} (h : isWordChar c = true) : c ≠ '%' :=
  fun e => by rw [e] at h; exact absurd h (by decide)

/-- The colon rewrite introduces no bare positional marker: if the input
has none (with the given previous-character state), neither does the
output. -/
theorem colonSubAux_preserves_noBare (l : List Char) :
    (∀ p q, bareSpec q l = 0 → bareSpec q (colonSubAux (.plain p) l) = 0) ∧
    (∀ q, bareSpec false l = 0 → bareSpec q (colonSubAux .pend l) = 0) ∧
    (bareSpec false l = 0 → bareSpec false (colonSubAux .name l) = 0) := by
  induction l with
  | nil =>
    refine ⟨fun p q _ => rfl, fun q _ => ?_, fun _ => rfl⟩
    simp [colonSubAux, bareSpec]
  | cons c cs ih =>
    obtain ⟨ihp, ihq, ihn⟩ := ih
    refine ⟨?_, ?_, ?_⟩
    · intro p q h
      obtain ⟨ht, hg⟩ := bareSpec_cons_zero h
      by_cases hc : c = ':'
      · subst hc
        cases p with
        | false =>
          simp only [colonSubAux, if_pos rfl, Bool.false_eq_true, if_false]
          exact ihq q ht
        | true =>
          simp only [colonSubAux, if_pos rfl, if_true]
          apply bareSpec_cons_zero_of
          · rintro ⟨h1, -, -⟩
            exact absurd h1 (by decide)
          · exact ihp true false ht
      · simp only [colonSubAux, if_neg hc]
        apply bareSpec_cons_zero_of
        · rintro ⟨h1, h2, h3⟩
          subst h1
          have hhead : cs.head? ≠ some 's' := fun hh => hg ⟨rfl, hh, h3⟩
          exact colonSubAux_head_ne_s _ cs hhead h2
        · exact ihp false (c == '%') ht
    · intro q h
      obtain ⟨ht, hg⟩ := bareSpec_cons_zero h
      by_cases hw : isWordStart c = true
      · simp only [colonSubAux, if_pos hw]
        apply bareSpec_cons_zero_of
        · rintro ⟨-, h2, -⟩
          simp at h2
        · apply bareSpec_cons_zero_of
          · rintro ⟨h1, -, -⟩
            exact absurd h1 (by decide)
          · apply bareSpec_cons_zero_of
            · rintro ⟨h1, -, -⟩
              exact absurd h1 (ne_pct_of_wordStart hw)
            · have hcp : (c == '%') = false :=
                beq_eq_false_iff_ne.mpr (ne_pct_of_wordStart hw)
              rw [hcp] at ht
              rw [hcp]
              exact ihn ht
      · by_cases hc : c = ':'
        · subst hc
          simp only [colonSubAux, if_neg hw, if_pos rfl]
          apply bareSpec_cons_zero_of
          · rintro ⟨h1, -, -⟩
            exact absurd h1 (by decide)
          · apply bareSpec_cons_zero_of
            · rintro ⟨h1, -, -⟩
              exact absurd h1 (by decide)
            · exact ihp true false ht
        · simp only [colonSubAux, if_neg hw, if_neg hc]
          apply bareSpec_cons_zero_of
          · rintro ⟨h1, -, -⟩
            exact absurd h1 (by decide)
          · apply bareSpec_cons_zero_of
            · rintro ⟨h1, h2, -⟩
              subst h1
              have hhead : cs.head? ≠ some 's' := fun hh => hg ⟨rfl, hh, rfl⟩
              exact colonSubAux_head_ne_s _ cs hhead h2
            · exact ihp false (c == '%') ht
    · intro h
      obtain ⟨ht, hg⟩ := bareSpec_cons_zero h
      by_cases hw : isWordChar c = true
      · simp only [colonSubAux, if_pos hw]
        apply bareSpec_cons_zero_of
        · rintro ⟨h1, -, -⟩
          exact absurd h1 (ne_pct_of_wordChar hw)
        · have hcp : (c == '%') = false :=
            beq_eq_false_iff_ne.mpr (ne_pct_of_wordChar hw)
          rw [hcp] at ht
          rw [hcp]
          exact ihn ht
      · by_cases hc : c = ':'
        · subst hc
          simp only [colonSubAux, if_neg hw, if_pos rfl]
          apply bareSpec_cons_zero_of
          · rintro ⟨h1, -, -⟩
            exact absurd h1 (by decide)
          · apply bareSpec_cons_zero_of
            · rintro ⟨h1, -, -⟩
              exact absurd h1 (by decide)
            · exact ihq ('s' == '%') ht
        · simp only [colonSubAux, if_neg hw, if_neg hc]
          apply bareSpec_cons_zero_of
          · rintro ⟨h1, -, -⟩
            exact absurd h1 (by decide)
          · apply bareSpec_cons_zero_of
            · rintro ⟨h1, -, -⟩
              exact absurd h1 (by decide)
            · apply bareSpec_cons_zero_of
              · rintro ⟨h1, h2, -⟩
                subst h1
                have hhead : cs.head? ≠ some 's' := fun hh => hg ⟨rfl, hh, rfl⟩
                exact colonSubAux_head_ne_s _ cs hhead h2
              · exact ihp false (c == '%') ht

/-- C2: for SQL containing only colon-named placeholders (no canonical
`%(name)s` match and no positional `%s` marker in the raw text),
analysing the raw text and analysing the text with every `:name` token
textually replaced by `%(name)s` (which is exactly the colon-rewrite
pass) both succeed and return the same normalized text, the same
named-parameter set and the same positional count, zero. -/
theorem c2_colon_equiv_canonical (raw_sql : List Char)
    (_h1 : findNamed raw_sql = []) (h2 : countPositional raw_sql = 0) :
    analyse_placeholders raw_sql =
      .ok (colonSub raw_sql, extract_named_params (colonSub raw_sql), 0) ∧
    analyse_placeholders (colonSub raw_sql) =
      .ok (colonSub raw_sql, extract_named_params (colonSub raw_sql), 0) := by
  have hz : countPositional (colonSub raw_sql) = 0 := by
    rw [countPositional_eq_bareSpec]
    refine (colonSubAux_preserves_noBare raw_sql).1 false false ?_
    rw [← countPositional_eq_bareSpec]
    exact h2
  have hidem := colonSub_idem raw_sql
  constructor
  · simp [analyse_placeholders, hz]
  · simp [analyse_placeholders, hidem, hz]

/-- Witness for C2 at a colon-only statement with two placeholders. -/
theorem c2_witness :
    (findNamed "id = :id AND st = :status".toList = [] ∧
      countPositional "id = :id AND st = :status".toList = 0) ∧
    analyse_placeholders "id = :id AND st = :status".toList =
      .ok ("id = %(id)s AND st = %(status)s".toList, ["id", "status"], 0) ∧
    analyse_placeholders "id = %(id)s AND st = %(status)s".toList =
      .ok ("id = %(id)s AND st = %(status)s".toList, ["id", "status"], 0) := by
  have h := c2_colon_equiv_canonical "id = :id AND st = :status".toList
    (by decide) (by decide)
  exact ⟨⟨by decide, by decide⟩, h.1, h.2⟩
